import Mathlib

/-
Verification of the byte-order-aware binary data writer described by
`src/sysroot/usr/include/giomm-2.4/giomm/dataoutputstream.h` and its
specification (a `Gio::DataOutputStream`-style writer over a buffered,
cancellable byte sink).  The header only declares the operations
(`set_byte_order`, `get_byte_order`, `put_byte`, `put_int16` ...
`put_uint64`, `put_string`); the implementations live in the underlying
native library, so the operational behaviour below is modelled from the
specification's description of the BinaryDataWriter component.
-/

namespace Giomm

/-- Modelled from the spec: `Gio::DataStreamByteOrder`, the enumerated
byte-order setting {BigEndian, LittleEndian, HostNative} that determines the
serialized byte layout of multi-byte writes (the implementation enum is not
under src/). -/
inductive DataStreamByteOrder where
  | BigEndian
  | LittleEndian
  | HostNative
deriving DecidableEq

/-- Modelled from the spec: the `CancellationToken` / `Gio::Cancellable`
collaborator; when signaled, write operations must abort and report failure
(the implementation is not under src/). -/
structure Cancellable where
  cancelled : Bool

/-- Modelled from the spec: the `BufferedByteSink` collaborator, which exposes
`write(bytes) -> (bytesWritten, errorOrNone)`.  `acceptCount bs` is the number
of bytes of a write call the sink accepts (a prefix, hence at most
`bs.length`); a call succeeds iff every byte is accepted.  `buffered` records
the bytes the sink has taken so far (a failed call may still buffer a prefix,
which is not undone), and `calls` counts invocations of the write primitive.
The implementation is not under src/. -/
structure BufferedByteSink where
  buffered : List Nat
  calls : Nat
  acceptCount : List Nat → Nat
  accept_le : ∀ bs, acceptCount bs ≤ bs.length

/-- Modelled from the spec: the state of a `Gio::DataOutputStream` /
BinaryDataWriter.  It wraps exactly one sink and holds the current byte order;
`hostBig` is the platform's native order, determined once at initialization
and cached; `committed` is the writer's own accounting of the logical byte
stream: the bytes of the calls that succeeded (the implementation is not under
src/). -/
structure DataOutputStream where
  byte_order : DataStreamByteOrder
  hostBig : Bool
  sink : BufferedByteSink
  committed : List Nat

/-- The big-endian byte decomposition of a value into `w` bytes, most
significant byte first (only the low `8*w` bits of `v` are used). -/
def bytesBE : Nat → Nat → List Nat
  | 0, _ => []
  | w + 1, v => bytesBE w (v / 256) ++ [v % 256]

/-- Reads a byte list most-significant-byte-first back into a value. -/
def decodeBE (bs : List Nat) : Nat :=
  bs.foldl (fun acc b => acc * 256 + b) 0

/-- Modelled from the spec: the encoding algorithm of the multi-byte put
operations.  The value is split into its constituent bytes in big-endian
order, then the sequence is reversed if the target order is little-endian;
for HostNative it is left untransformed when the platform is big-endian and
reversed otherwise (the implementation is not under src/). -/
def encodeBytes (o : DataStreamByteOrder) (hostBig : Bool) (w v : Nat) : List Nat :=
  match o with
  | .BigEndian => bytesBE w v
  | .LittleEndian => (bytesBE w v).reverse
  | .HostNative => if hostBig then bytesBE w v else (bytesBE w v).reverse

/-- The matching decoder: reads a byte sequence under a byte order back into
a value (the spec's `decode(bytes, o)`). -/
def decodeBytes (o : DataStreamByteOrder) (hostBig : Bool) (bs : List Nat) : Nat :=
  match o with
  | .BigEndian => decodeBE bs
  | .LittleEndian => decodeBE bs.reverse
  | .HostNative => if hostBig then decodeBE bs else decodeBE bs.reverse

/-- The unsigned `8*w`-bit pattern (two's complement) of a signed value, the
reinterpretation the signed put operations apply to their argument. -/
def twosComplement (w : Nat) (i : Int) : Nat :=
  (i % ((2 : Int) ^ (8 * w))).toNat

/-- The signed reinterpretation of an unsigned `8*w`-bit pattern. -/
def asSigned (w : Nat) (p : Nat) : Int :=
  if p < 2 ^ (8 * w - 1) then (p : Int) else (p : Int) - 2 ^ (8 * w)

/-- Modelled from the spec: one invocation of the sink's write primitive.
The sink accepts `acceptCount bs` bytes (a prefix, buffered even on failure);
the call reports success iff all bytes were accepted. -/
def sinkWrite (s : BufferedByteSink) (bs : List Nat) : BufferedByteSink × Bool :=
  let n := s.acceptCount bs
  ({ s with buffered := s.buffered ++ bs.take n, calls := s.calls + 1 },
   n == bs.length)

/-- Hands a byte sequence to the sink and updates the writer's accounting:
the bytes count as committed only when the sink accepted all of them. -/
def doWrite (st : DataOutputStream) (bs : List Nat) : DataOutputStream × Bool :=
  let r := sinkWrite st.sink bs
  ({ st with sink := r.1,
             committed := if r.2 then st.committed ++ bs else st.committed },
   r.2)

/-- Modelled from the spec: one put call.  The cancellation token is observed
at the sink-write boundary: a token signaled before the call makes the call
return `false` without invoking the sink's write primitive; otherwise the
bytes are handed to the sink in one write call (the implementation is not
under src/). -/
def writeCall (st : DataOutputStream) (bs : List Nat) (c : Option Cancellable) :
    DataOutputStream × Bool :=
  match c with
  | some t => if t.cancelled then (st, false) else doWrite st bs
  | none => doWrite st bs

/-- Modelled from the spec: `set_byte_order` — pure mutation of the byte-order
setting, no I/O, always succeeds (declared at dataoutputstream.h:122). -/
def DataOutputStream.set_byte_order (st : DataOutputStream)
    (o : DataStreamByteOrder) : DataOutputStream :=
  { st with byte_order := o }

/-- Modelled from the spec: `get_byte_order` — pure accessor (declared at
dataoutputstream.h:128). -/
def DataOutputStream.get_byte_order (st : DataOutputStream) : DataStreamByteOrder :=
  st.byte_order

/-- Modelled from the spec: `put_byte` — writes a single byte, byte order
irrelevant (declared at dataoutputstream.h:137). -/
def DataOutputStream.put_byte (st : DataOutputStream) (data : Nat)
    (c : Option Cancellable) : DataOutputStream × Bool :=
  writeCall st [data % 256] c

/-- Modelled from the spec: `put_int16` — encodes a signed 16-bit value (via
its two's-complement bit pattern) into 2 bytes in the writer's current byte
order and performs one write call (declared at dataoutputstream.h:149). -/
def DataOutputStream.put_int16 (st : DataOutputStream) (data : Int)
    (c : Option Cancellable) : DataOutputStream × Bool :=
  writeCall st (encodeBytes st.byte_order st.hostBig 2 (twosComplement 2 data)) c

/-- Modelled from the spec: `put_uint16` — encodes an unsigned 16-bit value
into 2 bytes in the writer's current byte order and performs one write call
(declared at dataoutputstream.h:161). -/
def DataOutputStream.put_uint16 (st : DataOutputStream) (data : Nat)
    (c : Option Cancellable) : DataOutputStream × Bool :=
  writeCall st (encodeBytes st.byte_order st.hostBig 2 data) c

/-- Modelled from the spec: `put_int32` (declared at dataoutputstream.h:173). -/
def DataOutputStream.put_int32 (st : DataOutputStream) (data : Int)
    (c : Option Cancellable) : DataOutputStream × Bool :=
  writeCall st (encodeBytes st.byte_order st.hostBig 4 (twosComplement 4 data)) c

/-- Modelled from the spec: `put_uint32` (declared at dataoutputstream.h:185). -/
def DataOutputStream.put_uint32 (st : DataOutputStream) (data : Nat)
    (c : Option Cancellable) : DataOutputStream × Bool :=
  writeCall st (encodeBytes st.byte_order st.hostBig 4 data) c

/-- Modelled from the spec: `put_int64` (declared at dataoutputstream.h:197). -/
def DataOutputStream.put_int64 (st : DataOutputStream) (data : Int)
    (c : Option Cancellable) : DataOutputStream × Bool :=
  writeCall st (encodeBytes st.byte_order st.hostBig 8 (twosComplement 8 data)) c

/-- Modelled from the spec: `put_uint64` (declared at dataoutputstream.h:209). -/
def DataOutputStream.put_uint64 (st : DataOutputStream) (data : Nat)
    (c : Option Cancellable) : DataOutputStream × Bool :=
  writeCall st (encodeBytes st.byte_order st.hostBig 8 data) c

/-- Modelled from the spec: `put_string` — writes the raw bytes of the text
(modelled as its byte list), NUL-terminator-free, as a single write call; byte
order does not apply (declared at dataoutputstream.h:221). -/
def DataOutputStream.put_string (st : DataOutputStream) (str : List Nat)
    (c : Option Cancellable) : DataOutputStream × Bool :=
  writeCall st str c

/-- One put operation together with its argument, used to quantify over
"every put operation" of the writer. -/
inductive PutOp where
  | byte (data : Nat)
  | int16 (data : Int)
  | uint16 (data : Nat)
  | int32 (data : Int)
  | uint32 (data : Nat)
  | int64 (data : Int)
  | uint64 (data : Nat)
  | string (data : List Nat)

/-- Runs a put operation on a writer state. -/
def runPut (op : PutOp) (st : DataOutputStream) (c : Option Cancellable) :
    DataOutputStream × Bool :=
  match op with
  | .byte d => st.put_byte d c
  | .int16 d => st.put_int16 d c
  | .uint16 d => st.put_uint16 d c
  | .int32 d => st.put_int32 d c
  | .uint32 d => st.put_uint32 d c
  | .int64 d => st.put_int64 d c
  | .uint64 d => st.put_uint64 d c
  | .string s => st.put_string s c

/-- The byte sequence a put operation submits to the sink under a given byte
order and platform order. -/
def opBytesOrd (op : PutOp) (o : DataStreamByteOrder) (hb : Bool) : List Nat :=
  match op with
  | .byte d => [d % 256]
  | .int16 d => encodeBytes o hb 2 (twosComplement 2 d)
  | .uint16 d => encodeBytes o hb 2 d
  | .int32 d => encodeBytes o hb 4 (twosComplement 4 d)
  | .uint32 d => encodeBytes o hb 4 d
  | .int64 d => encodeBytes o hb 8 (twosComplement 8 d)
  | .uint64 d => encodeBytes o hb 8 d
  | .string s => s

/-- The contract of a multi-byte put operation on state `st`, for width `w`
(in bytes) and bit pattern `pat`, with result `out`: the encoding is exactly
`w` bytes, each a byte value, laid out most-significant-byte-first for
BigEndian, reversed for LittleEndian, in the platform's order for HostNative;
the call invokes the sink's write primitive exactly once with that exact
sequence; and it returns `true` iff the sink accepts all of the bytes. -/
def PutWordSpec (st : DataOutputStream) (w pat : Nat)
    (out : DataOutputStream × Bool) : Prop :=
  (encodeBytes st.byte_order st.hostBig w pat).length = w ∧
  (∀ b ∈ bytesBE w pat, b < 256) ∧
  decodeBE (bytesBE w pat) = pat % 2 ^ (8 * w) ∧
  (st.byte_order = .BigEndian →
    encodeBytes st.byte_order st.hostBig w pat = bytesBE w pat) ∧
  (st.byte_order = .LittleEndian →
    encodeBytes st.byte_order st.hostBig w pat = (bytesBE w pat).reverse) ∧
  (st.byte_order = .HostNative →
    encodeBytes st.byte_order st.hostBig w pat =
      (if st.hostBig then bytesBE w pat else (bytesBE w pat).reverse)) ∧
  out.1.sink.calls = st.sink.calls + 1 ∧
  out.1.sink.buffered = st.sink.buffered ++
    (encodeBytes st.byte_order st.hostBig w pat).take
      (st.sink.acceptCount (encodeBytes st.byte_order st.hostBig w pat)) ∧
  (out.2 = true ↔
    st.sink.acceptCount (encodeBytes st.byte_order st.hostBig w pat) = w)

/-- A sink that accepts every byte of every write call. -/
def sinkAll : BufferedByteSink :=
  ⟨[], 0, fun bs => bs.length, fun _ => Nat.le_refl _⟩

/-- A sink that rejects every byte of every write call. -/
def sinkZero : BufferedByteSink :=
  ⟨[], 0, fun _ => 0, fun _ => Nat.zero_le _⟩

/-- A fresh big-endian writer over the all-accepting sink. -/
def stAll : DataOutputStream :=
  ⟨.BigEndian, true, sinkAll, []⟩

/-- A fresh big-endian writer over the all-rejecting sink. -/
def stZero : DataOutputStream :=
  ⟨.BigEndian, true, sinkZero, []⟩

theorem length_bytesBE (w v : Nat) : (bytesBE w v).length = w := by
  induction w generalizing v with
  | zero => rfl
  | succ w ih => simp [bytesBE, ih]

theorem mem_bytesBE_lt (w v : Nat) : ∀ b ∈ bytesBE w v, b < 256 := by
  induction w generalizing v with
  | zero => intro b hb; simp [bytesBE] at hb
  | succ w ih =>
      intro b hb
      simp only [bytesBE, List.mem_append, List.mem_singleton] at hb
      rcases hb with hb | hb
      · exact ih _ b hb
      · subst hb; exact Nat.mod_lt _ (by norm_num)

theorem decodeBE_bytesBE (w : Nat) : ∀ v : Nat, decodeBE (bytesBE w v) = v % 2 ^ (8 * w) := by
  induction w with
  | zero => intro v; simp [bytesBE, decodeBE, Nat.mod_one]
  | succ w ih =>
      intro v
      have hpow : (2 : Nat) ^ (8 * (w + 1)) = 256 * 2 ^ (8 * w) := by
        rw [Nat.mul_add, Nat.pow_add]; ring
      simp only [bytesBE, decodeBE, List.foldl_append, List.foldl_cons, List.foldl_nil]
      have := ih (v / 256)
      simp only [decodeBE] at this
      rw [this, hpow, Nat.mod_mul]
      ring

theorem twosComplement_asSigned (w p : Nat) (h : p < 2 ^ (8 * w)) :
    twosComplement w (asSigned w p) = p := by
  have hcast : (p : Int) < (2 : Int) ^ (8 * w) := by exact_mod_cast h
  unfold twosComplement asSigned
  split
  · rw [Int.emod_eq_of_lt (Int.natCast_nonneg p) hcast]
    exact Int.toNat_natCast p
  · have hsub : (p : Int) - 2 ^ (8 * w) = (p : Int) + 2 ^ (8 * w) * (-1) := by ring
    rw [hsub, Int.add_mul_emod_self_left,
        Int.emod_eq_of_lt (Int.natCast_nonneg p) hcast]
    exact Int.toNat_natCast p

theorem runPut_eq_writeCall (op : PutOp) (st : DataOutputStream) (c : Option Cancellable) :
    runPut op st c = writeCall st (opBytesOrd op st.byte_order st.hostBig) c := by
  cases op <;> rfl

theorem putWordSpec_writeCall (st : DataOutputStream) (w pat : Nat) :
    PutWordSpec st w pat
      (writeCall st (encodeBytes st.byte_order st.hostBig w pat) none) := by
  have hlen : (encodeBytes st.byte_order st.hostBig w pat).length = w := by
    cases hbo : st.byte_order with
    | BigEndian => simp [encodeBytes, length_bytesBE]
    | LittleEndian => simp [encodeBytes, length_bytesBE]
    | HostNative => cases st.hostBig <;> simp [encodeBytes, length_bytesBE]
  refine ⟨hlen, mem_bytesBE_lt w pat, decodeBE_bytesBE w pat, ?_, ?_, ?_, ?_, ?_, ?_⟩
  · intro hbo; rw [hbo]; rfl
  · intro hbo; rw [hbo]; rfl
  · intro hbo; rw [hbo]; rfl
  · simp [writeCall, doWrite, sinkWrite]
  · simp [writeCall, doWrite, sinkWrite]
  · simp [writeCall, doWrite, sinkWrite, hlen]

/-- Claim C1: each multi-byte put operation (`put_int16`/`put_uint16`/
`put_int32`/`put_uint32`/`put_int64`/`put_uint64`), for every value and every
byte-order setting, encodes the value's bit pattern into exactly 2/4/8 bytes
in the writer's current byte order (most-significant byte first for
BigEndian, the reverse for LittleEndian, the cached platform order for
HostNative), invokes the sink's write primitive exactly once with that exact
byte sequence, and returns `true` iff the sink accepts all of those bytes. -/
theorem claim_C1_put_word_ops (st : DataOutputStream) (a : Int) (b : Nat)
    (c : Int) (d : Nat) (e : Int) (f : Nat) :
    PutWordSpec st 2 (twosComplement 2 a) (st.put_int16 a none) ∧
    PutWordSpec st 2 b (st.put_uint16 b none) ∧
    PutWordSpec st 4 (twosComplement 4 c) (st.put_int32 c none) ∧
    PutWordSpec st 4 d (st.put_uint32 d none) ∧
    PutWordSpec st 8 (twosComplement 8 e) (st.put_int64 e none) ∧
    PutWordSpec st 8 f (st.put_uint64 f none) :=
  ⟨putWordSpec_writeCall st 2 _, putWordSpec_writeCall st 2 _,
   putWordSpec_writeCall st 4 _, putWordSpec_writeCall st 4 _,
   putWordSpec_writeCall st 8 _, putWordSpec_writeCall st 8 _⟩

/-- Claim C2: decoding the byte sequence produced by encoding a 16/32/64-bit
value under a byte order, using that same order, yields the value again
(the statement holds for every width `w`, in particular 2, 4 and 8 bytes). -/
theorem claim_C2_roundtrip (o : DataStreamByteOrder) (hb : Bool) (w v : Nat)
    (h : v < 2 ^ (8 * w)) :
    decodeBytes o hb (encodeBytes o hb w v) = v := by
  have key : decodeBE (bytesBE w v) = v := by
    rw [decodeBE_bytesBE, Nat.mod_eq_of_lt h]
  cases o with
  | BigEndian => simpa [encodeBytes, decodeBytes] using key
  | LittleEndian => simpa [encodeBytes, decodeBytes] using key
  | HostNative => cases hb <;> simpa [encodeBytes, decodeBytes] using key

theorem claim_C2_witness :
    4660 < 2 ^ (8 * 2) ∧
    decodeBytes .LittleEndian false (encodeBytes .LittleEndian false 2 4660) = 4660 :=
  ⟨by norm_num, claim_C2_roundtrip .LittleEndian false 2 4660 (by norm_num)⟩

/-- Claim C8: `set_byte_order` always succeeds (it is a total pure function),
performs no I/O — the sink and the committed byte stream are unchanged — it
mutates only the byte-order setting, and a subsequent `get_byte_order`
returns the order that was set. -/
theorem claim_C8_set_byte_order_pure (st : DataOutputStream) (o : DataStreamByteOrder) :
    (st.set_byte_order o).get_byte_order = o ∧
    (st.set_byte_order o).sink = st.sink ∧
    (st.set_byte_order o).committed = st.committed ∧
    (st.set_byte_order o).hostBig = st.hostBig :=
  ⟨rfl, rfl, rfl, rfl⟩

/-- Claim C3: for every width and value, the BigEndian encoding is the
reversal of the LittleEndian encoding. -/
theorem claim_C3_big_is_reverse_little (hb : Bool) (w v : Nat) :
    encodeBytes .BigEndian hb w v = (encodeBytes .LittleEndian hb w v).reverse := by
  simp [encodeBytes]

/-- Claim C4: changing the byte order between writes affects only writes
issued after the change and never re-encodes already-written bytes: writing
`op₁` under BigEndian, then setting LittleEndian, then writing `op₂` (both
writes accepted by the sink) yields the committed byte stream
BigEndian-encoding of the first value followed by the LittleEndian-encoding
of the second. -/
theorem claim_C4_order_change_mid_stream (op₁ op₂ : PutOp) (st : DataOutputStream)
    (hbo : st.byte_order = .BigEndian)
    (h₁ : st.sink.acceptCount (opBytesOrd op₁ .BigEndian st.hostBig) =
      (opBytesOrd op₁ .BigEndian st.hostBig).length)
    (h₂ : st.sink.acceptCount (opBytesOrd op₂ .LittleEndian st.hostBig) =
      (opBytesOrd op₂ .LittleEndian st.hostBig).length) :
    (runPut op₂ ((runPut op₁ st none).1.set_byte_order .LittleEndian) none).1.committed =
      st.committed ++ opBytesOrd op₁ .BigEndian st.hostBig ++
        opBytesOrd op₂ .LittleEndian st.hostBig := by
  rw [runPut_eq_writeCall, runPut_eq_writeCall]
  simp only [DataOutputStream.set_byte_order, writeCall, doWrite, sinkWrite, hbo]
  simp [h₁, h₂]

theorem claim_C4_witness :
    stAll.byte_order = .BigEndian ∧
    (runPut (.uint16 772) ((runPut (.uint16 258) stAll none).1.set_byte_order
        .LittleEndian) none).1.committed =
      stAll.committed ++ opBytesOrd (.uint16 258) .BigEndian stAll.hostBig ++
        opBytesOrd (.uint16 772) .LittleEndian stAll.hostBig :=
  ⟨rfl, claim_C4_order_change_mid_stream (.uint16 258) (.uint16 772) stAll rfl rfl rfl⟩

/-- Claim C5: for every put operation and every input, whenever the sink
reports a write failure for that call (the call is not cancelled and the sink
does not accept all the bytes), the operation returns `false` and the
writer's accounting treats no bytes from that call as committed. -/
theorem claim_C5_sink_failure (op : PutOp) (st : DataOutputStream)
    (c : Option Cancellable)
    (hc : ∀ t, c = some t → t.cancelled = false)
    (hfail : st.sink.acceptCount (opBytesOrd op st.byte_order st.hostBig) ≠
      (opBytesOrd op st.byte_order st.hostBig).length) :
    (runPut op st c).2 = false ∧ (runPut op st c).1.committed = st.committed := by
  rw [runPut_eq_writeCall]
  have hok : (st.sink.acceptCount (opBytesOrd op st.byte_order st.hostBig) ==
      (opBytesOrd op st.byte_order st.hostBig).length) = false := by
    simpa using hfail
  cases c with
  | none => constructor <;> simp [writeCall, doWrite, sinkWrite, hok]
  | some t =>
      have ht := hc t rfl
      constructor <;> simp [writeCall, doWrite, sinkWrite, ht, hok]

theorem claim_C5_witness :
    stZero.sink.acceptCount (opBytesOrd (.byte 7) stZero.byte_order stZero.hostBig) ≠
      (opBytesOrd (.byte 7) stZero.byte_order stZero.hostBig).length ∧
    (runPut (.byte 7) stZero none).2 = false ∧
    (runPut (.byte 7) stZero none).1.committed = stZero.committed :=
  ⟨by decide,
   (claim_C5_sink_failure (.byte 7) stZero none (fun t h => by cases h) (by decide)).1,
   (claim_C5_sink_failure (.byte 7) stZero none (fun t h => by cases h) (by decide)).2⟩

/-- Claim C6: for every put operation and every input, if the cancellation
token is already signaled before the call, the operation returns `false` and
the state is returned unchanged — in particular the sink's write primitive is
not invoked (`calls` is not incremented) and the sink receives no bytes. -/
theorem claim_C6_cancelled_no_write (op : PutOp) (st : DataOutputStream)
    (t : Cancellable) (h : t.cancelled = true) :
    runPut op st (some t) = (st, false) := by
  rw [runPut_eq_writeCall]
  simp [writeCall, h]

theorem claim_C6_witness :
    (Cancellable.mk true).cancelled = true ∧
    runPut (.uint32 5) stAll (some (Cancellable.mk true)) = (stAll, false) :=
  ⟨rfl, claim_C6_cancelled_no_write (.uint32 5) stAll (Cancellable.mk true) rfl⟩

/-- Claim C7: `put_string` on the empty string performs a zero-length write —
one invocation of the sink's write primitive that changes neither the sink's
buffered bytes nor the committed stream — and always returns `true`. -/
theorem claim_C7_empty_string (st : DataOutputStream) :
    (st.put_string [] none).2 = true ∧
    (st.put_string [] none).1 =
      { st with sink := { st.sink with calls := st.sink.calls + 1 } } := by
  have h0 : st.sink.acceptCount [] = 0 := Nat.le_zero.mp (st.sink.accept_le [])
  constructor
  · simp [DataOutputStream.put_string, writeCall, doWrite, sinkWrite, h0]
  · simp [DataOutputStream.put_string, writeCall, doWrite, sinkWrite, h0]

/-- Claim C9: for each width (16/32/64 bits) and every bit pattern, the
signed put operation applied to the signed reinterpretation of the pattern
and the unsigned put operation applied to the pattern itself produce the same
writer state and the same result (identical bytes to the sink). -/
theorem claim_C9_signed_unsigned_agree (st : DataOutputStream)
    (c : Option Cancellable) (p q r : Nat)
    (hp : p < 2 ^ 16) (hq : q < 2 ^ 32) (hr : r < 2 ^ 64) :
    st.put_int16 (asSigned 2 p) c = st.put_uint16 p c ∧
    st.put_int32 (asSigned 4 q) c = st.put_uint32 q c ∧
    st.put_int64 (asSigned 8 r) c = st.put_uint64 r c := by
  refine ⟨?_, ?_, ?_⟩
  · unfold DataOutputStream.put_int16 DataOutputStream.put_uint16
    rw [twosComplement_asSigned 2 p (by exact hp)]
  · unfold DataOutputStream.put_int32 DataOutputStream.put_uint32
    rw [twosComplement_asSigned 4 q (by exact hq)]
  · unfold DataOutputStream.put_int64 DataOutputStream.put_uint64
    rw [twosComplement_asSigned 8 r (by exact hr)]

theorem claim_C9_witness :
    65535 < 2 ^ 16 ∧ 5 < 2 ^ 32 ∧ 9223372036854775808 < 2 ^ 64 ∧
    (stAll.put_int16 (asSigned 2 65535) none = stAll.put_uint16 65535 none ∧
     stAll.put_int32 (asSigned 4 5) none = stAll.put_uint32 5 none ∧
     stAll.put_int64 (asSigned 8 9223372036854775808) none =
       stAll.put_uint64 9223372036854775808 none) :=
  ⟨by norm_num, by norm_num, by norm_num,
   claim_C9_signed_unsigned_agree stAll none 65535 5 9223372036854775808
     (by norm_num) (by norm_num) (by norm_num)⟩

/-- Claim C10: every put operation is deterministic — two invocations of the
same operation from the same writer state, with the same input value and the
same sink and cancellation behavior, produce identical writer states
(identical emitted byte sequences) and the same boolean result. -/
theorem claim_C10_deterministic (op : PutOp) (st₁ st₂ : DataOutputStream)
    (c₁ c₂ : Option Cancellable) (hst : st₁ = st₂) (hc : c₁ = c₂) :
    runPut op st₁ c₁ = runPut op st₂ c₂ := by
  subst hst; subst hc; rfl

theorem claim_C10_witness :
    runPut (.int16 (-2)) stAll none = runPut (.int16 (-2)) stAll none :=
  claim_C10_deterministic (.int16 (-2)) stAll stAll none none rfl rfl

end Giomm
